import Mathlib

/-!
Verification development for the `loggerino` demo HTTP service
(`src/app.js`, plus the earlier minimal version in `src/unnamed/part_000`).

The embedding models:
* the structured error-log formatter of the central error-handling
  middleware (`quote`, the stack-trace newline replacement, and the
  single-line log templates, `src/app.js` lines 174-224);
* the Prometheus metric registration data (histogram buckets, line 29);
* the Express middleware pipeline of `src/app.js` as a per-request
  dispatch function `handle`.  Express dispatch semantics used by the
  model: a route handler that ends the response without calling `next`
  stops the chain; `next(err)` skips every remaining plain middleware and
  jumps to the next error-handling (4-argument) middleware; a request
  matching no route falls through the whole stack in registration order.

Strings are modelled by Lean `String`/`List Char`; the JS regex
`/\r?\n\s*/g` and `String.prototype.replace` are modelled character by
character.  Durations (`process.hrtime`) and wall-clock dates are
abstracted: the duration value of a histogram observation is dropped
(only its label set is kept) and the ISO date is an oracle string carried
by the request.
-/

namespace Loggerino

/-! ### Formatter helpers (src/app.js lines 181-190) -/

/-- One step of `str.replace(/"/g, '""')`: every double-quote character is
doubled, all other characters are kept. -/
def escQ : List Char → List Char
  | [] => []
  | c :: cs => if c = '"' then '"' :: '"' :: escQ cs else c :: escQ cs

/-- `const quote = (str) => `"${(str || '').replace(/"/g, '""')}"``
(src/app.js line 181).  A missing (`null`/`undefined`) string is modelled
by `none`; `(str || '')` maps it (and the falsy empty string) to `""`. -/
def quote (str : Option String) : String :=
  "\"" ++ String.mk (escQ (str.getD "").data) ++ "\""

/-- JavaScript's `\s` character class (the whitespace characters matched by
the regex `/\r?\n\s*/g` after the newline). -/
def isJsSpace (c : Char) : Bool :=
  c = ' ' || c = '\t' || c = '\n' || c = '\r' || c.toNat = 0x0B || c.toNat = 0x0C ||
  c.toNat = 0xA0 || c.toNat = 0x1680 ||
  (0x2000 <= c.toNat && c.toNat <= 0x200A) ||
  c.toNat = 0x2028 || c.toNat = 0x2029 || c.toNat = 0x202F || c.toNat = 0x205F ||
  c.toNat = 0x3000 || c.toNat = 0xFEFF

/-- Drop the maximal leading run of JS whitespace (the `\s*` part of the
regex, which is greedy). -/
def dropJsSpaces : List Char → List Char
  | [] => []
  | c :: cs => if isJsSpace c then dropJsSpaces cs else c :: cs

/-- Fuel-indexed model of `str.replace(/\r?\n\s*/g, ' | ')`: scanning left
to right, each `\n` (optionally preceded by `\r`) together with the
following whitespace run is replaced by `' | '`.  The fuel only serves
totality; `replNl` supplies enough fuel. -/
def replNlFuel : Nat → List Char → List Char
  | 0, l => l
  | _ + 1, [] => []
  | f + 1, c :: cs =>
    if c = '\n' then
      ' ' :: '|' :: ' ' :: replNlFuel f (dropJsSpaces cs)
    else if c = '\r' ∧ cs.head? = some '\n' then
      ' ' :: '|' :: ' ' :: replNlFuel f (dropJsSpaces cs.tail)
    else
      c :: replNlFuel f cs

/-- `str.replace(/\r?\n\s*/g, ' | ')` on char lists. -/
def replNl (l : List Char) : List Char := replNlFuel l.length l

/-- The same replacement on strings. -/
def replNlStr (s : String) : String := String.mk (replNl s.data)

/-- `const stackTrace = err.stack ? err.stack.replace(/\r?\n\s*/g, ' | ') : 'N/A'`
(src/app.js line 186).  JS truthiness: both a missing stack and the empty
string fall back to `"N/A"`. -/
def stackTraceOf : Option String → String
  | none => "N/A"
  | some s => if s = "" then "N/A" else replNlStr s

/-- The SERVER_ERROR log line body (src/app.js lines 189-190), without the
trailing `\n` line terminator that the template appends before the write. -/
def errorLogBody (date : String) (status : Nat) (method path message stackTrace : String) :
    String :=
  "[" ++ date ++ "] || LEVEL=SERVER_ERROR || STATUS=" ++ Nat.repr status ++
    " || METHOD=" ++ method ++ " || PATH=" ++ quote (some path) ++
    " || MESSAGE=" ++ quote (some message) ++ " || STACK=" ++ quote (some stackTrace)

/-- The CLIENT_ERROR log line body (src/app.js lines 213-214), without the
trailing `\n`. -/
def warningLogBody (date : String) (status : Nat) (method path message : String) : String :=
  "[" ++ date ++ "] || LEVEL=CLIENT_ERROR || STATUS=" ++ Nat.repr status ++
    " || METHOD=" ++ method ++ " || PATH=" ++ quote (some path) ++
    " || MESSAGE=" ++ quote (some message)

/-! ### Splitting a rendered line on the field delimiter

The spec's round-trip property splits the rendered line on the constant
separator token `" || "` (JS `line.split(' || ')`, greedy left-to-right,
non-overlapping).  Modelled by a fuel-indexed scanner. -/

/-- The field delimiter of the structured log format. -/
def sepL : List Char := [' ', '|', '|', ' ']

/-- Fuel-indexed scanner for `split(' || ')`: at each position, if the
next four characters are the delimiter, close the current piece and skip
them; otherwise the character joins the current piece. -/
def spFuel : Nat → List Char → List (List Char)
  | 0, l => [l]
  | _ + 1, [] => [[]]
  | f + 1, c :: cs =>
    if (c :: cs).take 4 = sepL then
      [] :: spFuel f (cs.drop 3)
    else
      match spFuel f cs with
      | [] => [[c]]
      | p :: ps => (c :: p) :: ps

/-- `line.split(' || ')` on char lists. -/
def splitPieces (l : List Char) : List (List Char) := spFuel l.length l

/-- Splitting a string on the field delimiter `" || "`. -/
def splitFields (s : String) : List String :=
  (splitPieces s.data).map String.mk

/-- Every `"` in the list is immediately followed by a pairing `"`
(doubling escape): scanning left to right, quotes occur in adjacent
pairs. -/
def doubledQuotes : List Char → Bool
  | [] => true
  | c :: cs =>
    if c = '"' then
      match cs with
      | [] => false
      | c2 :: cs2 => (c2 = '"' : Bool) && doubledQuotes cs2
    else
      doubledQuotes cs

/-- No two adjacent pipe characters anywhere in the list. -/
def noDoublePipe : List Char → Bool
  | [] => true
  | [_] => true
  | c1 :: c2 :: rest => !(c1 = '|' && c2 = '|') && noDoublePipe (c2 :: rest)

/-! ### Prometheus registration data (src/app.js lines 25-37) -/

/-- Name of the request duration histogram. -/
def histogramName : String := "http_request_duration_seconds"

/-- Name of the application error counter. -/
def appErrorsCounterName : String := "application_errors_total"

/-- The histogram's bucket upper bounds in seconds, fixed at registration
time (src/app.js line 29). -/
def buckets : List ℚ :=
  [0.005, 0.01, 0.025, 0.05, 0.1, 0.25, 0.5, 1, 2.5, 5, 10]

/-! ### Data model: errors, labels, routes, requests -/

/-- A JS error object as used by the app: a message, an optional numeric
`status` property, and an optional `stack` string. -/
structure Err where
  message : String
  status : Option Nat
  stack : Option String
  deriving DecidableEq

/-- A Prometheus label tuple `(method, route, status_code)`. -/
structure Labels where
  method : String
  route : String
  status_code : Nat
  deriving DecidableEq

/-- The routes registered by src/app.js (lines 106-137), in registration
order. -/
inductive Route
  | root
  | statusR
  | echo
  | random
  | compute
  | errorR
  | metrics
  deriving DecidableEq

/-- The path pattern each route is registered under. -/
def routePath : Route → String
  | .root => "/"
  | .statusR => "/status"
  | .echo => "/echo"
  | .random => "/random"
  | .compute => "/compute"
  | .errorR => "/error"
  | .metrics => "/metrics"

/-- The HTTP method each route is registered for
(`app.get` everywhere except `app.post('/echo', ...)`). -/
def routeMethod : Route → String
  | .echo => "POST"
  | _ => "GET"

/-- Registration order of the routes. -/
def routes : List Route :=
  [.root, .statusR, .echo, .random, .compute, .errorR, .metrics]

/-- The Express dispatcher: the first registered route whose method and
path both match, if any. -/
def matchRoute (method path : String) : Option Route :=
  routes.find? fun r => routeMethod r == method && routePath r == path

/-- An incoming HTTP request together with the environment oracles that
decide the run: the coin flip and pool pick of `maybeThrow`
(src/app.js lines 111-121), the runtime stack string attached to
constructed `Error` objects, and the wall-clock ISO date.  `path` models
both `req.path` and `req.originalUrl` (no query strings are modelled). -/
structure Request where
  method : String
  path : String
  flakyFails : Bool
  flakyPick : Fin 3
  errStack : Option String
  now : String

/-- The pool of errors `maybeThrow` draws from (src/app.js lines 113-117). -/
def pool (stk : Option String) : Fin 3 → Err
  | ⟨0, _⟩ => ⟨"Database connection failed", some 503, stk⟩
  | ⟨1, _⟩ => ⟨"Cache not available", some 500, stk⟩
  | ⟨2, _⟩ => ⟨"Token expired", some 401, stk⟩

/-- `req.route ? req.route.path : req.path`: the matched route pattern if
the dispatcher matched one, else the raw request path (src/app.js
lines 151 and 204). -/
def routeLabel (matched : Option Route) (path : String) : String :=
  match matched with
  | some r => routePath r
  | none => path

/-- The response bodies the app can produce. -/
inductive ResBody
  | helloWorld
  | statusOk
  | echoBody
  | randomValue
  | computeResult
  | metricsText
  | errorJson (message : String) (status : Nat)
  deriving DecidableEq

/-- What one invocation of the central error-handling middleware
(src/app.js lines 174-224) emits: the single-line log writes to the log
file (split by the write site: line 193 for SERVER_ERROR, line 216 for
CLIENT_ERROR), the error-counter increments (line 205), and the JSON
response (lines 221-223).  Console output is not modelled. -/
structure ErrorHandlerResult where
  serverErrorLines : List String
  clientErrorLines : List String
  errorIncs : List Labels
  resStatus : Nat
  resBody : ResBody
  deriving DecidableEq

/-- The central error-handling middleware (src/app.js lines 174-224).
`const status = err.status ?? 500`; for `status >= 500` one SERVER_ERROR
line is written and the counter incremented; for `400 <= status < 500`
one CLIENT_ERROR line is written; otherwise nothing is written; in every
case the JSON body `{error: {message, status}}` is sent with `status`. -/
def errorHandler (err : Err) (req : Request) (matched : Option Route) (date : String) :
    ErrorHandlerResult :=
  let status := err.status.getD 500
  if 500 ≤ status then
    { serverErrorLines :=
        [errorLogBody date status req.method req.path err.message (stackTraceOf err.stack)
          ++ "\n"]
      clientErrorLines := []
      errorIncs := [⟨req.method, routeLabel matched req.path, status⟩]
      resStatus := status
      resBody := .errorJson err.message status }
  else if 400 ≤ status ∧ status < 500 then
    { serverErrorLines := []
      clientErrorLines :=
        [warningLogBody date status req.method req.path err.message ++ "\n"]
      errorIncs := []
      resStatus := status
      resBody := .errorJson err.message status }
  else
    { serverErrorLines := []
      clientErrorLines := []
      errorIncs := []
      resStatus := status
      resBody := .errorJson err.message status }

/-- Everything observable that one request produces: histogram
observations (label sets only; the duration value is abstracted), counter
increments, error log lines, and the response. -/
structure Outcome where
  observations : List Labels
  errorIncs : List Labels
  serverErrorLines : List String
  clientErrorLines : List String
  resStatus : Nat
  resBody : ResBody
  deriving DecidableEq

/-- Outcome of a route handler that ends the response itself
(`res.send`/`res.json`/`res.end` with the default status 200): the chain
stops, so the finalization middleware at src/app.js line 144 never runs
and nothing is observed or logged on the error paths. -/
def okOutcome (b : ResBody) : Outcome :=
  { observations := []
    errorIncs := []
    serverErrorLines := []
    clientErrorLines := []
    resStatus := 200
    resBody := b }

/-- Outcome of a request that reaches the central error handler:
`next(err)` skips every remaining plain middleware (including the
finalization middleware), so only the observations recorded before the
jump (`obs`) plus the error handler's own emissions survive. -/
def errOutcome (obs : List Labels) (r : ErrorHandlerResult) : Outcome :=
  { observations := obs
    errorIncs := r.errorIncs
    serverErrorLines := r.serverErrorLines
    clientErrorLines := r.clientErrorLines
    resStatus := r.resStatus
    resBody := r.resBody }

/-- One request through the middleware stack of src/app.js, following
Express dispatch semantics (see the module docstring).  A matched
always-OK route ends the response and stops the chain.  A flaky route
either errors via `next(err)` (jumping straight to the error handler) or
responds.  `GET /error` always errors with no explicit status.  A request
matching no route falls through to the finalization middleware (line
144), which observes the duration with `res.statusCode` still at its
default `200` and `req.route` unset, and then to the 404 middleware (line
171), which raises `Not Found` with status 404. -/
def handle (req : Request) : Outcome :=
  match matchRoute req.method req.path with
  | some .root => okOutcome .helloWorld
  | some .statusR => okOutcome .statusOk
  | some .echo => okOutcome .echoBody
  | some .random =>
    if req.flakyFails then
      errOutcome [] (errorHandler (pool req.errStack req.flakyPick) req (some .random) req.now)
    else
      okOutcome .randomValue
  | some .compute =>
    if req.flakyFails then
      errOutcome [] (errorHandler (pool req.errStack req.flakyPick) req (some .compute) req.now)
    else
      okOutcome .computeResult
  | some .errorR =>
    errOutcome []
      (errorHandler ⟨"This endpoint always bombs", none, req.errStack⟩ req (some .errorR)
        req.now)
  | some .metrics => okOutcome .metricsText
  | none =>
    errOutcome [⟨req.method, routeLabel none req.path, 200⟩]
      (errorHandler ⟨"Not Found", some 404, req.errStack⟩ req none req.now)

/-- The central error-handling middleware of the earlier minimal version
(src/unnamed/part_000 lines 41-46): it only computes the status default
and sends the JSON body, with no logging and no metrics. -/
def minimalErrorHandler (err : Err) : Nat × ResBody :=
  let status := err.status.getD 500
  (status, .errorJson err.message status)

/-! ### Concrete requests used as evaluation points -/

/-- `GET /` with benign oracles. -/
def reqRoot : Request :=
  ⟨"GET", "/", false, 0, some "Error: boom\n    at x", "2024-01-01T00:00:00.000Z"⟩

/-- `GET /error`. -/
def reqError : Request :=
  ⟨"GET", "/error", false, 0, some "Error: boom\n    at x", "2024-01-01T00:00:00.000Z"⟩

/-- `GET /unknown-path`, matching no route. -/
def reqUnknown : Request :=
  ⟨"GET", "/unknown-path", false, 0, some "Error: boom\n    at x",
    "2024-01-01T00:00:00.000Z"⟩

/-- `GET /random` on a run where `maybeThrow` draws the 503 error. -/
def reqRandom503 : Request :=
  ⟨"GET", "/random", true, 0, some "Error: boom\n    at x", "2024-01-01T00:00:00.000Z"⟩

/-- `GET /random` on a run where `maybeThrow` draws the 401 error. -/
def reqRandom401 : Request :=
  ⟨"GET", "/random", true, 2, some "Error: boom\n    at x", "2024-01-01T00:00:00.000Z"⟩

/-! ### Basic lemmas about the central error handler -/

theorem errorHandler_resStatus (err : Err) (req : Request) (m : Option Route) (d : String) :
    (errorHandler err req m d).resStatus = err.status.getD 500 := by
  unfold errorHandler
  dsimp only
  split
  · rfl
  · split <;> rfl

theorem errorHandler_resBody (err : Err) (req : Request) (m : Option Route) (d : String) :
    (errorHandler err req m d).resBody = .errorJson err.message (err.status.getD 500) := by
  unfold errorHandler
  dsimp only
  split
  · rfl
  · split <;> rfl

theorem errorHandler_server (err : Err) (req : Request) (m : Option Route) (d : String)
    (h : 500 ≤ err.status.getD 500) :
    (errorHandler err req m d).serverErrorLines =
      [errorLogBody d (err.status.getD 500) req.method req.path err.message
        (stackTraceOf err.stack) ++ "\n"] ∧
    (errorHandler err req m d).clientErrorLines = [] ∧
    (errorHandler err req m d).errorIncs =
      [⟨req.method, routeLabel m req.path, err.status.getD 500⟩] := by
  unfold errorHandler
  dsimp only
  rw [if_pos h]
  exact ⟨rfl, rfl, rfl⟩

theorem errorHandler_client (err : Err) (req : Request) (m : Option Route) (d : String)
    (h4 : 400 ≤ err.status.getD 500) (h5 : err.status.getD 500 < 500) :
    (errorHandler err req m d).serverErrorLines = [] ∧
    (errorHandler err req m d).clientErrorLines =
      [warningLogBody d (err.status.getD 500) req.method req.path err.message ++ "\n"] ∧
    (errorHandler err req m d).errorIncs = [] := by
  unfold errorHandler
  dsimp only
  rw [if_neg (by omega), if_pos ⟨h4, h5⟩]
  exact ⟨rfl, rfl, rfl⟩

theorem errorHandler_low (err : Err) (req : Request) (m : Option Route) (d : String)
    (h : err.status.getD 500 < 400) :
    (errorHandler err req m d).serverErrorLines = [] ∧
    (errorHandler err req m d).clientErrorLines = [] ∧
    (errorHandler err req m d).errorIncs = [] := by
  unfold errorHandler
  dsimp only
  rw [if_neg (by omega), if_neg (by omega)]
  exact ⟨rfl, rfl, rfl⟩

theorem errorHandler_incs_mem (err : Err) (req : Request) (m : Option Route) (d : String) :
    ∀ l ∈ (errorHandler err req m d).errorIncs,
      l = ⟨req.method, routeLabel m req.path, err.status.getD 500⟩ := by
  intro l hl
  unfold errorHandler at hl
  dsimp only at hl
  split at hl
  · simpa using hl
  · split at hl <;> simp at hl

/-! ### Claim theorems: error-handler-level claims -/

/-- C7: the `http_request_duration_seconds` histogram's buckets are fixed
at registration time to exactly the eleven values 0.005, 0.01, 0.025,
0.05, 0.1, 0.25, 0.5, 1, 2.5, 5, 10 seconds, i.e. 5 ms through 10 s
expressed in seconds. -/
theorem C7_bucket_values :
    histogramName = "http_request_duration_seconds" ∧
    buckets.length = 11 ∧
    buckets = [5/1000, 1/100, 1/40, 1/20, 1/10, 1/4, 1/2, 1, 5/2, 5, 10] ∧
    buckets.map (· * 1000) =
      [5, 10, 25, 50, 100, 250, 500, 1000, 2500, 5000, 10000] := by
  refine ⟨rfl, rfl, ?_, ?_⟩ <;> norm_num [buckets]

/-- C8: when an error whose effective status is below 400 reaches the
central error handler, no error log line is written (neither write site
emits) and the error counter is not incremented, yet the requester still
receives the JSON body with the error's message and that status. -/
theorem C8_sub400_frame (err : Err) (req : Request) (m : Option Route) (d : String)
    (h : err.status.getD 500 < 400) :
    (errorHandler err req m d).serverErrorLines = [] ∧
    (errorHandler err req m d).clientErrorLines = [] ∧
    (errorHandler err req m d).errorIncs = [] ∧
    (errorHandler err req m d).resStatus = err.status.getD 500 ∧
    (errorHandler err req m d).resBody = .errorJson err.message (err.status.getD 500) := by
  obtain ⟨h1, h2, h3⟩ := errorHandler_low err req m d h
  exact ⟨h1, h2, h3, errorHandler_resStatus err req m d, errorHandler_resBody err req m d⟩

/-- Witness for C8 at a concrete redirect-style error (status 302). -/
theorem C8_sub400_frame_witness :
    (errorHandler ⟨"Found", some 302, none⟩ reqRoot none "D").serverErrorLines = [] ∧
    (errorHandler ⟨"Found", some 302, none⟩ reqRoot none "D").clientErrorLines = [] ∧
    (errorHandler ⟨"Found", some 302, none⟩ reqRoot none "D").errorIncs = [] ∧
    (errorHandler ⟨"Found", some 302, none⟩ reqRoot none "D").resStatus =
      (⟨"Found", some 302, none⟩ : Err).status.getD 500 ∧
    (errorHandler ⟨"Found", some 302, none⟩ reqRoot none "D").resBody =
      .errorJson "Found" ((⟨"Found", some 302, none⟩ : Err).status.getD 500) :=
  C8_sub400_frame ⟨"Found", some 302, none⟩ reqRoot none "D" (by decide)

/-- C9: for every error object, the central error-handling middleware of
src/app.js and the minimal version in src/unnamed/part_000 produce the
same client-visible response: the same effective status
(`err.status ?? 500`) and the same body `{error: {message, status}}`. -/
theorem C9_refines_minimal (err : Err) (req : Request) (m : Option Route) (d : String) :
    ((errorHandler err req m d).resStatus, (errorHandler err req m d).resBody) =
      minimalErrorHandler err := by
  rw [errorHandler_resStatus, errorHandler_resBody]
  rfl

/-! ### Claim theorems: pipeline-level scenario claims -/

/-- C4: an error signaled without an explicit status property gets
effective status 500: every request to `GET /error` receives status 500
with body `{error: {message: "This endpoint always bombs", status: 500}}`,
exactly one SERVER_ERROR line is written, and the error counter is
incremented once with route "/error" (whatever the flaky-route oracles,
the runtime stack and the clock say). -/
theorem C4_error_route_always_500 (flaky : Bool) (pick : Fin 3) (stk : Option String)
    (now : String) :
    (handle ⟨"GET", "/error", flaky, pick, stk, now⟩).resStatus = 500 ∧
    (handle ⟨"GET", "/error", flaky, pick, stk, now⟩).resBody =
      .errorJson "This endpoint always bombs" 500 ∧
    (handle ⟨"GET", "/error", flaky, pick, stk, now⟩).serverErrorLines.length = 1 ∧
    (handle ⟨"GET", "/error", flaky, pick, stk, now⟩).errorIncs = [⟨"GET", "/error", 500⟩] := by
  have hm : matchRoute "GET" "/error" = some Route.errorR := by decide
  simp only [handle, hm]
  refine ⟨?_, ?_, ?_, ?_⟩ <;>
    simp [errOutcome, errorHandler, routeLabel, routePath]

/-- C5: every request to a path no route matches receives status 404 with
body `{error: {message: "Not Found", status: 404}}`, exactly one
CLIENT_ERROR log line is written for it, and the error counter is not
incremented. -/
theorem C5_unmatched_404 (req : Request) (h : matchRoute req.method req.path = none) :
    (handle req).resStatus = 404 ∧
    (handle req).resBody = .errorJson "Not Found" 404 ∧
    (handle req).clientErrorLines.length = 1 ∧
    (handle req).errorIncs = [] := by
  simp only [handle, h]
  refine ⟨?_, ?_, ?_, ?_⟩ <;>
    simp [errOutcome, errorHandler, routeLabel]

/-- Witness for C5 at the concrete request `GET /unknown-path`. -/
theorem C5_unmatched_404_witness :
    (handle reqUnknown).resStatus = 404 ∧
    (handle reqUnknown).resBody = .errorJson "Not Found" 404 ∧
    (handle reqUnknown).clientErrorLines.length = 1 ∧
    (handle reqUnknown).errorIncs = [] :=
  C5_unmatched_404 reqUnknown (by decide)

/-- C1 (code bug evidence): evaluating the pipeline at the failing input
`GET /` — a request that completes with status 200 — records zero
duration observations, because the route handler ends the response
without calling `next`, so the finalization middleware at src/app.js line
144 never runs.  The only requests that do reach it are unmatched-path
requests, and even there the single observation is labeled with
`res.statusCode` still at its pre-response default 200, not the final
404.  This contradicts the claim (and the code's own comment that the
middleware is "executed after the route handler and error handler"). -/
theorem C1_finalization_skipped :
    (handle reqRoot).resStatus = 200 ∧
    (handle reqRoot).observations = [] ∧
    (handle reqError).resStatus = 500 ∧
    (handle reqError).observations = [] ∧
    (handle reqUnknown).resStatus = 404 ∧
    (handle reqUnknown).observations = [⟨"GET", "/unknown-path", 200⟩] := by
  decide

/-- Shape of a request's outcome: either a matched route ended the
response itself (status 200, nothing observed or logged), or the request
reached the central error handler with some error object, with the
finalization middleware's lone observation present exactly when no route
matched. -/
theorem handle_shape (req : Request) :
    ((handle req).resStatus = 200 ∧ (handle req).errorIncs = [] ∧
      (handle req).serverErrorLines = [] ∧ (handle req).clientErrorLines = [] ∧
      (handle req).observations = [])
  ∨ ∃ err obs,
      handle req = errOutcome obs (errorHandler err req (matchRoute req.method req.path) req.now)
      ∧ ((obs = [] ∧ matchRoute req.method req.path ≠ none)
        ∨ (obs = [⟨req.method, req.path, 200⟩] ∧ matchRoute req.method req.path = none
            ∧ err = ⟨"Not Found", some 404, req.errStack⟩)) := by
  rcases hm : matchRoute req.method req.path with _ | r
  · right
    refine ⟨⟨"Not Found", some 404, req.errStack⟩, [⟨req.method, req.path, 200⟩], ?_, ?_⟩
    · simp only [handle, hm, routeLabel]
    · exact Or.inr ⟨rfl, rfl, rfl⟩
  · cases r
    case root => left; simp [handle, hm, okOutcome]
    case statusR => left; simp [handle, hm, okOutcome]
    case echo => left; simp [handle, hm, okOutcome]
    case metrics => left; simp [handle, hm, okOutcome]
    case errorR =>
      right
      refine ⟨⟨"This endpoint always bombs", none, req.errStack⟩, [], ?_, Or.inl ⟨rfl, ?_⟩⟩
      · simp only [handle, hm]
      · simp [hm]
    case random =>
      by_cases hf : req.flakyFails = true
      · right
        refine ⟨pool req.errStack req.flakyPick, [], ?_, Or.inl ⟨rfl, ?_⟩⟩
        · simp only [handle, hm, hf, if_true]
        · simp [hm]
      · left; simp [handle, hm, hf, okOutcome]
    case compute =>
      by_cases hf : req.flakyFails = true
      · right
        refine ⟨pool req.errStack req.flakyPick, [], ?_, Or.inl ⟨rfl, ?_⟩⟩
        · simp only [handle, hm, hf, if_true]
        · simp [hm]
      · left; simp [handle, hm, hf, okOutcome]

/-- C2: for every request whose final status is at least 500, the error
counter for the request's method, route label and final status increments
by exactly 1 and exactly one SERVER_ERROR line is written (and no
CLIENT_ERROR line); for every request whose final status lies in
[400, 499], exactly one CLIENT_ERROR line is written and the counter is
not incremented. -/
theorem C2_error_counter_and_lines (req : Request) :
    (500 ≤ (handle req).resStatus →
      (handle req).errorIncs =
        [⟨req.method, routeLabel (matchRoute req.method req.path) req.path,
          (handle req).resStatus⟩] ∧
      (handle req).serverErrorLines.length = 1 ∧
      (handle req).clientErrorLines = [])
  ∧ (400 ≤ (handle req).resStatus ∧ (handle req).resStatus < 500 →
      (handle req).clientErrorLines.length = 1 ∧
      (handle req).errorIncs = [] ∧
      (handle req).serverErrorLines = []) := by
  rcases handle_shape req with ⟨h200, _, _, _, _⟩ | ⟨err, obs, heq, _⟩
  · constructor
    · intro h; rw [h200] at h; omega
    · intro h; rw [h200] at h; omega
  · have hst : (handle req).resStatus = err.status.getD 500 := by
      rw [heq]; exact errorHandler_resStatus ..
    constructor
    · intro h
      rw [hst] at h
      obtain ⟨h1, h2, h3⟩ :=
        errorHandler_server err req (matchRoute req.method req.path) req.now h
      rw [hst, heq]
      simp [errOutcome, h1, h2, h3]
    · rintro ⟨h4, h5⟩
      rw [hst] at h4 h5
      obtain ⟨h1, h2, h3⟩ :=
        errorHandler_client err req (matchRoute req.method req.path) req.now h4 h5
      rw [heq]
      simp [errOutcome, h1, h2, h3]

/-- Witness for C2: the 5xx arm at `GET /error` (final status 500) and
the 4xx arm at `GET /unknown-path` (final status 404). -/
theorem C2_error_counter_and_lines_witness :
    ((handle reqError).errorIncs =
        [⟨reqError.method, routeLabel (matchRoute reqError.method reqError.path) reqError.path,
          (handle reqError).resStatus⟩] ∧
      (handle reqError).serverErrorLines.length = 1 ∧
      (handle reqError).clientErrorLines = [])
  ∧ ((handle reqUnknown).clientErrorLines.length = 1 ∧
      (handle reqUnknown).errorIncs = [] ∧
      (handle reqUnknown).serverErrorLines = []) :=
  ⟨(C2_error_counter_and_lines reqError).1 (by decide),
   (C2_error_counter_and_lines reqUnknown).2 (by decide)⟩

/-- C6: every metric sample the pipeline emits — a duration observation
or an error-counter increment — carries as its route label the matched
route pattern when the dispatcher matched a route, and the raw request
path otherwise. -/
theorem C6_route_label (req : Request) (l : Labels)
    (h : l ∈ (handle req).observations ∨ l ∈ (handle req).errorIncs) :
    l.route = routeLabel (matchRoute req.method req.path) req.path := by
  rcases handle_shape req with ⟨_, hinc, _, _, hobs⟩ | ⟨err, obs, heq, hobs⟩
  · rcases h with h | h
    · rw [hobs] at h; cases h
    · rw [hinc] at h; cases h
  · rcases h with h | h
    · rw [heq] at h
      have : l ∈ obs := h
      rcases hobs with ⟨rfl, _⟩ | ⟨rfl, hnone, _⟩
      · cases this
      · simp only [List.mem_singleton] at this
        rw [this, hnone]
        rfl
    · rw [heq] at h
      have := errorHandler_incs_mem err req (matchRoute req.method req.path) req.now l h
      rw [this]

/-- Witness for C6: the finalization middleware's observation for
`GET /unknown-path` carries the raw path as route label. -/
theorem C6_route_label_witness :
    (⟨"GET", "/unknown-path", 200⟩ : Labels).route =
      routeLabel (matchRoute reqUnknown.method reqUnknown.path) reqUnknown.path :=
  C6_route_label reqUnknown ⟨"GET", "/unknown-path", 200⟩ (by decide)

/-! ### String lemmas supporting the formatter round-trip claim -/

theorem dropJsSpaces_length_le (l : List Char) : (dropJsSpaces l).length ≤ l.length := by
  induction l with
  | nil => simp [dropJsSpaces]
  | cons c cs ih =>
    simp only [dropJsSpaces]
    split
    · exact Nat.le_succ_of_le ih
    · simp

theorem dropJsSpaces_subset {c : Char} {l : List Char} (h : c ∈ dropJsSpaces l) : c ∈ l := by
  induction l with
  | nil => simpa [dropJsSpaces] using h
  | cons a cs ih =>
    simp only [dropJsSpaces] at h
    split at h
    · exact List.mem_cons_of_mem a (ih h)
    · exact h

theorem replNlFuel_no_nl : ∀ (f : Nat) (l : List Char), l.length ≤ f →
    '\n' ∉ replNlFuel f l := by
  intro f
  induction f with
  | zero =>
    intro l hl
    rw [Nat.le_zero, List.length_eq_zero] at hl
    subst hl
    simp [replNlFuel]
  | succ f ih =>
    intro l hl
    cases l with
    | nil => simp [replNlFuel]
    | cons c cs =>
      simp only [List.length_cons, Nat.succ_le_succ_iff] at hl
      have htl : cs.tail.length ≤ cs.length := by cases cs <;> simp
      simp only [replNlFuel]
      by_cases h1 : c = '\n'
      · rw [if_pos h1]
        intro hmem
        simp only [List.mem_cons] at hmem
        rcases hmem with h | h | h | hmem
        · exact absurd h (by decide)
        · exact absurd h (by decide)
        · exact absurd h (by decide)
        · exact ih (dropJsSpaces cs) (le_trans (dropJsSpaces_length_le cs) hl) hmem
      · rw [if_neg h1]
        by_cases h2 : c = '\r' ∧ cs.head? = some '\n'
        · rw [if_pos h2]
          intro hmem
          simp only [List.mem_cons] at hmem
          rcases hmem with h | h | h | hmem
          · exact absurd h (by decide)
          · exact absurd h (by decide)
          · exact absurd h (by decide)
          · exact ih (dropJsSpaces cs.tail)
              (le_trans (dropJsSpaces_length_le cs.tail) (le_trans htl hl)) hmem
        · rw [if_neg h2]
          intro hmem
          simp only [List.mem_cons] at hmem
          rcases hmem with h | hmem
          · exact h1 h.symm
          · exact ih cs hl hmem

theorem replNl_no_nl (l : List Char) : '\n' ∉ replNl l :=
  replNlFuel_no_nl l.length l le_rfl

theorem ndp_tail {c : Char} {cs : List Char} (h : noDoublePipe (c :: cs) = true) :
    noDoublePipe cs = true := by
  cases cs with
  | nil => rfl
  | cons c2 rest =>
    simp only [noDoublePipe, Bool.and_eq_true] at h
    exact h.2

theorem ndp_head {c : Char} {cs : List Char} (h : noDoublePipe (c :: cs) = true)
    (hc : c = '|') : cs.head? ≠ some '|' := by
  cases cs with
  | nil => simp
  | cons c2 rest =>
    simp only [noDoublePipe, Bool.and_eq_true, Bool.not_eq_eq_eq_not, Bool.not_true,
      Bool.and_eq_false_iff] at h
    intro hh
    simp only [List.head?_cons, Option.some_inj] at hh
    rcases h.1 with h1 | h1 <;> simp [hc, hh] at h1

theorem ndp_cons {c : Char} {l : List Char} (h : noDoublePipe l = true)
    (hc : c ≠ '|' ∨ l.head? ≠ some '|') : noDoublePipe (c :: l) = true := by
  cases l with
  | nil => rfl
  | cons c2 rest =>
    simp only [noDoublePipe, Bool.and_eq_true]
    refine ⟨?_, h⟩
    rcases hc with hc | hc
    · simp [hc]
    · have : c2 ≠ '|' := by
        intro h2
        exact hc (by simp [h2])
      simp [this]

theorem ndp_of_not_pipe {l : List Char} (h : '|' ∉ l) : noDoublePipe l = true := by
  induction l with
  | nil => rfl
  | cons c cs ih =>
    refine ndp_cons (ih fun hm => h (List.mem_cons_of_mem c hm)) (Or.inl ?_)
    intro hc
    exact h (hc ▸ List.mem_cons_self c cs)

theorem ndp_append_nonpipe {l : List Char} {c : Char} (hc : c ≠ '|')
    (h : noDoublePipe l = true) : noDoublePipe (l ++ [c]) = true := by
  induction l with
  | nil => rfl
  | cons a cs ih =>
    have htail := ih (ndp_tail h)
    refine ndp_cons htail ?_
    cases cs with
    | nil =>
      right
      intro hcontra
      apply hc
      simpa using hcontra
    | cons c2 rest =>
      by_cases ha : a = '|'
      · right
        have := ndp_head h ha
        simp only [List.head?_cons] at this ⊢
        simpa using this
      · exact Or.inl ha

theorem ndp_append_left_nopipe {a l : List Char} (ha : '|' ∉ a)
    (hl : noDoublePipe l = true) : noDoublePipe (a ++ l) = true := by
  induction a with
  | nil => simpa
  | cons c cs ih =>
    have hcs : '|' ∉ cs := fun hm => ha (List.mem_cons_of_mem c hm)
    refine ndp_cons (ih hcs) (Or.inl ?_)
    intro hc
    exact ha (hc ▸ List.mem_cons_self c cs)

theorem escQ_mem {c : Char} {l : List Char} (h : c ∈ escQ l) : c ∈ l ∨ c = '"' := by
  induction l with
  | nil => simp [escQ] at h
  | cons a cs ih =>
    simp only [escQ] at h
    split at h
    · simp only [List.mem_cons] at h
      rcases h with h | h | h
      · exact Or.inr h
      · exact Or.inr h
      · rcases ih h with h | h
        · exact Or.inl (List.mem_cons_of_mem a h)
        · exact Or.inr h
    · simp only [List.mem_cons] at h
      rcases h with h | h
      · exact Or.inl (by rw [h]; exact List.mem_cons_self a cs)
      · rcases ih h with h | h
        · exact Or.inl (List.mem_cons_of_mem a h)
        · exact Or.inr h

theorem escQ_head_pipe {l : List Char} (h : (escQ l).head? = some '|') :
    l.head? = some '|' := by
  cases l with
  | nil => simp [escQ] at h
  | cons a cs =>
    simp only [escQ] at h
    split at h
    · simp at h
    · simpa using h

theorem escQ_ndp {l : List Char} (h : noDoublePipe l = true) :
    noDoublePipe (escQ l) = true := by
  induction l with
  | nil => rfl
  | cons c cs ih =>
    have htail := ih (ndp_tail h)
    simp only [escQ]
    split
    · exact ndp_cons (ndp_cons htail (Or.inl (by decide))) (Or.inl (by decide))
    · refine ndp_cons htail ?_
      by_cases hc : c = '|'
      · right
        intro hcontra
        exact ndp_head h hc (escQ_head_pipe hcontra)
      · exact Or.inl hc

theorem replNlFuel_ndp : ∀ (f : Nat) (l : List Char), l.length ≤ f → '|' ∉ l →
    noDoublePipe (replNlFuel f l) = true := by
  intro f
  induction f with
  | zero =>
    intro l hl _
    rw [Nat.le_zero, List.length_eq_zero] at hl
    subst hl
    rfl
  | succ f ih =>
    intro l hl hp
    cases l with
    | nil => rfl
    | cons c cs =>
      simp only [List.length_cons, Nat.succ_le_succ_iff] at hl
      have hpc : c ≠ '|' := fun hc => hp (hc ▸ List.mem_cons_self c cs)
      have hpcs : '|' ∉ cs := fun hm => hp (List.mem_cons_of_mem c hm)
      have htl : cs.tail.length ≤ cs.length := by cases cs <;> simp
      simp only [replNlFuel]
      by_cases h1 : c = '\n'
      · rw [if_pos h1]
        have hrec := ih (dropJsSpaces cs) (le_trans (dropJsSpaces_length_le cs) hl)
          (fun hm => hpcs (dropJsSpaces_subset hm))
        refine ndp_cons (ndp_cons (ndp_cons hrec ?_) ?_) ?_
        · exact Or.inl (by decide)
        · refine Or.inr ?_
          intro hx
          simp only [List.head?_cons, Option.some_inj] at hx
          exact absurd hx (by decide)
        · exact Or.inl (by decide)
      · rw [if_neg h1]
        by_cases h2 : c = '\r' ∧ cs.head? = some '\n'
        · rw [if_pos h2]
          have hptail : '|' ∉ cs.tail := fun hm => hpcs (List.mem_of_mem_tail hm)
          have hrec := ih (dropJsSpaces cs.tail)
            (le_trans (dropJsSpaces_length_le cs.tail) (le_trans htl hl))
            (fun hm => hptail (dropJsSpaces_subset hm))
          refine ndp_cons (ndp_cons (ndp_cons hrec ?_) ?_) ?_
          · exact Or.inl (by decide)
          · refine Or.inr ?_
            intro hx
            simp only [List.head?_cons, Option.some_inj] at hx
            exact absurd hx (by decide)
          · exact Or.inl (by decide)
        · rw [if_neg h2]
          exact ndp_cons (ih cs hl hpcs) (Or.inl hpc)

theorem replNl_ndp {l : List Char} (hp : '|' ∉ l) : noDoublePipe (replNl l) = true :=
  replNlFuel_ndp l.length l le_rfl hp

theorem spFuel_congr : ∀ (f g : Nat) (l : List Char), l.length ≤ f → l.length ≤ g →
    spFuel f l = spFuel g l := by
  intro f
  induction f with
  | zero =>
    intro g l hf _
    rw [Nat.le_zero, List.length_eq_zero] at hf
    subst hf
    cases g <;> rfl
  | succ f ih =>
    intro g l hf hg
    cases l with
    | nil => cases g <;> rfl
    | cons c cs =>
      cases g with
      | zero => simp at hg
      | succ g =>
        simp only [List.length_cons, Nat.succ_le_succ_iff] at hf hg
        have hd : (cs.drop 3).length ≤ cs.length := by
          simp only [List.length_drop]
          omega
        simp only [spFuel]
        by_cases h4 : (c :: cs).take 4 = sepL
        · rw [if_pos h4, if_pos h4, ih g (cs.drop 3) (le_trans hd hf) (le_trans hd hg)]
        · rw [if_neg h4, if_neg h4, ih g cs hf hg]

theorem sp_sep_cons (t : List Char) : splitPieces (sepL ++ t) = [] :: splitPieces t := by
  show spFuel (sepL ++ t).length (sepL ++ t) = _
  have hlen : (sepL ++ t).length = t.length + 4 := by simp [sepL]
  have hform : sepL ++ t = ' ' :: '|' :: '|' :: ' ' :: t := rfl
  rw [hlen, hform]
  simp only [spFuel]
  rw [if_pos (by simp [sepL, List.take])]
  have hdrop : (('|' :: '|' :: ' ' :: t).drop 3) = t := rfl
  rw [hdrop, spFuel_congr (t.length + 3) t.length t (by omega) le_rfl]
  rfl

theorem take4_ne_sep_append (p : List Char) (hp : noDoublePipe p = true) (hne : p ≠ [])
    (t : List Char) : ¬ (p ++ (sepL ++ t)).take 4 = sepL := by
  rcases p with _ | ⟨a, _ | ⟨b, _ | ⟨c3, rest⟩⟩⟩
  · exact absurd rfl hne
  · intro h4
    have hform : ([a] ++ (sepL ++ t)) = a :: ' ' :: '|' :: '|' :: ' ' :: t := rfl
    rw [hform] at h4
    simp [sepL, List.take] at h4
  · intro h4
    have hform : ([a, b] ++ (sepL ++ t)) = a :: b :: ' ' :: '|' :: '|' :: ' ' :: t := rfl
    rw [hform] at h4
    simp [sepL, List.take] at h4
  · intro h4
    have hform : ((a :: b :: c3 :: rest) ++ (sepL ++ t)) =
        a :: b :: c3 :: (rest ++ (sepL ++ t)) := rfl
    rw [hform] at h4
    have hbc : b = '|' ∧ c3 = '|' := by
      simp only [sepL, List.take_succ_cons, List.cons.injEq] at h4
      exact ⟨h4.2.1, h4.2.2.1⟩
    have h2 := ndp_tail hp
    simp only [noDoublePipe, Bool.and_eq_true] at h2
    rw [hbc.1, hbc.2] at h2
    simp at h2

theorem take4_ne_sep_plain (l : List Char) (h : noDoublePipe l = true) :
    ¬ l.take 4 = sepL := by
  rcases l with _ | ⟨a, _ | ⟨b, _ | ⟨c3, rest⟩⟩⟩
  · simp [sepL]
  · simp [sepL, List.take]
  · simp [sepL, List.take]
  · intro h4
    have hbc : b = '|' ∧ c3 = '|' := by
      simp only [sepL, List.take_succ_cons, List.cons.injEq] at h4
      exact ⟨h4.2.1, h4.2.2.1⟩
    have h2 := ndp_tail h
    simp only [noDoublePipe, Bool.and_eq_true] at h2
    rw [hbc.1, hbc.2] at h2
    simp at h2

theorem sp_append (p t : List Char) (hp : noDoublePipe p = true) :
    splitPieces (p ++ (sepL ++ t)) = p :: splitPieces t := by
  revert hp
  induction p with
  | nil =>
    intro _
    simpa using sp_sep_cons t
  | cons c cs ih =>
    intro hp
    have ihcs := ih (ndp_tail hp)
    show spFuel ((c :: cs) ++ (sepL ++ t)).length ((c :: cs) ++ (sepL ++ t)) = _
    have hform : (c :: cs) ++ (sepL ++ t) = c :: (cs ++ (sepL ++ t)) := rfl
    have hlen : ((c :: cs) ++ (sepL ++ t)).length = (cs ++ (sepL ++ t)).length + 1 := by
      simp
    rw [hlen, hform]
    simp only [spFuel]
    rw [if_neg (hform ▸ take4_ne_sep_append (c :: cs) hp (by simp) t)]
    have hrec : spFuel (cs ++ (sepL ++ t)).length (cs ++ (sepL ++ t)) =
        cs :: splitPieces t := ihcs
    rw [hrec]

theorem spFuel_single : ∀ (f : Nat) (l : List Char), l.length ≤ f →
    noDoublePipe l = true → spFuel f l = [l] := by
  intro f
  induction f with
  | zero =>
    intro l hf _
    rw [Nat.le_zero, List.length_eq_zero] at hf
    subst hf
    rfl
  | succ f ih =>
    intro l hf hl
    cases l with
    | nil => rfl
    | cons c cs =>
      simp only [List.length_cons, Nat.succ_le_succ_iff] at hf
      simp only [spFuel]
      rw [if_neg (take4_ne_sep_plain (c :: cs) hl), ih cs hf (ndp_tail hl)]

theorem sp_single (l : List Char) (h : noDoublePipe l = true) : splitPieces l = [l] :=
  spFuel_single l.length l le_rfl h

theorem split_seven (P1 P2 P3 P4 P5 P6 P7 : List Char)
    (h1 : noDoublePipe P1 = true) (h2 : noDoublePipe P2 = true)
    (h3 : noDoublePipe P3 = true) (h4 : noDoublePipe P4 = true)
    (h5 : noDoublePipe P5 = true) (h6 : noDoublePipe P6 = true)
    (h7 : noDoublePipe P7 = true) :
    splitPieces (P1 ++ (sepL ++ (P2 ++ (sepL ++ (P3 ++ (sepL ++ (P4 ++ (sepL ++
      (P5 ++ (sepL ++ (P6 ++ (sepL ++ P7)))))))))))) =
      [P1, P2, P3, P4, P5, P6, P7] := by
  rw [sp_append P1 _ h1, sp_append P2 _ h2, sp_append P3 _ h3, sp_append P4 _ h4,
    sp_append P5 _ h5, sp_append P6 _ h6, sp_single P7 h7]

/-! ### Decimal rendering of the status (JS number interpolation) -/

theorem digitChar_isDigit {m : Nat} (h : m < 10) : (Nat.digitChar m).isDigit = true := by
  interval_cases m <;> decide

theorem toDigitsCore_digits : ∀ (f n : Nat) (acc : List Char),
    (∀ c ∈ acc, c.isDigit = true) → ∀ c ∈ Nat.toDigitsCore 10 f n acc,
      c.isDigit = true := by
  intro f
  induction f with
  | zero =>
    intro n acc hacc c hc
    simp only [Nat.toDigitsCore] at hc
    exact hacc c hc
  | succ f ih =>
    intro n acc hacc c hc
    simp only [Nat.toDigitsCore] at hc
    have hd : (Nat.digitChar (n % 10)).isDigit = true :=
      digitChar_isDigit (Nat.mod_lt n (by norm_num))
    by_cases h0 : n / 10 = 0
    · rw [if_pos h0] at hc
      simp only [List.mem_cons] at hc
      rcases hc with rfl | hc
      · exact hd
      · exact hacc c hc
    · rw [if_neg h0] at hc
      refine ih (n / 10) _ ?_ c hc
      intro c2 hc2
      simp only [List.mem_cons] at hc2
      rcases hc2 with rfl | hc2
      · exact hd
      · exact hacc c2 hc2

theorem repr_digits (n : Nat) : ∀ c ∈ (Nat.repr n).data, c.isDigit = true := by
  intro c hc
  have hdata : (Nat.repr n).data = Nat.toDigitsCore 10 (n + 1) n [] := rfl
  rw [hdata] at hc
  exact toDigitsCore_digits (n + 1) n [] (by intro c2 hc2; cases hc2) c hc

theorem repr_no_pipe (n : Nat) : '|' ∉ (Nat.repr n).data := by
  intro h
  exact absurd (repr_digits n '|' h) (by decide)

theorem repr_no_nl (n : Nat) : '\n' ∉ (Nat.repr n).data := by
  intro h
  exact absurd (repr_digits n '\n' h) (by decide)

/-! ### The quoted fields -/

theorem not_mem_append {c : Char} {a b : List Char} (ha : c ∉ a) (hb : c ∉ b) :
    c ∉ a ++ b := by
  intro h
  rcases List.mem_append.mp h with h | h
  · exact ha h
  · exact hb h

theorem quote_data (s : String) : (quote (some s)).data = '"' :: (escQ s.data ++ ['"']) := rfl

theorem quote_not_mem {c : Char} {s : String} (hc : c ≠ '"') (h : c ∉ s.data) :
    c ∉ (quote (some s)).data := by
  rw [quote_data]
  intro hmem
  simp only [List.mem_cons, List.mem_append] at hmem
  rcases hmem with rfl | hmem | rfl | hmem
  · exact hc rfl
  · rcases escQ_mem hmem with hx | hx
    · exact h hx
    · exact hc hx
  · exact hc rfl
  · exact absurd hmem (by simp)

theorem quote_ndp {s : String} (h : noDoublePipe s.data = true) :
    noDoublePipe (quote (some s)).data = true := by
  rw [quote_data]
  exact ndp_cons (ndp_append_nonpipe (by decide) (escQ_ndp h)) (Or.inl (by decide))

theorem doubledQuotes_cons (c : Char) (cs : List Char) :
    doubledQuotes (c :: cs) =
      if c = '"' then
        match cs with
        | [] => false
        | c2 :: cs2 => (c2 = '"' : Bool) && doubledQuotes cs2
      else doubledQuotes cs := by
  cases cs <;> rfl

theorem escQ_doubled (l : List Char) : doubledQuotes (escQ l) = true := by
  induction l with
  | nil => rfl
  | cons c cs ih =>
    by_cases hc : c = '"'
    · subst hc
      have h1 : escQ ('"' :: cs) = '"' :: '"' :: escQ cs := by simp [escQ]
      rw [h1, doubledQuotes_cons, if_pos rfl]
      simp [ih]
    · have h1 : escQ (c :: cs) = c :: escQ cs := by simp [escQ, hc]
      rw [h1, doubledQuotes_cons, if_neg hc, ih]

/-! ### Decomposing the rendered SERVER_ERROR line into its seven fields -/

theorem errorLogBody_data (d : String) (n : Nat) (m p msg st : String) :
    (errorLogBody d n m p msg st).data =
      ("[" ++ d ++ "]").data ++ (sepL ++
      (("LEVEL=SERVER_ERROR" : String).data ++ (sepL ++
      (("STATUS=" ++ Nat.repr n).data ++ (sepL ++
      (("METHOD=" ++ m).data ++ (sepL ++
      (("PATH=" ++ quote (some p)).data ++ (sepL ++
      (("MESSAGE=" ++ quote (some msg)).data ++ (sepL ++
      ("STACK=" ++ quote (some st)).data))))))))))) := by
  simp only [errorLogBody, String.data_append, sepL, List.append_assoc,
    List.cons_append, List.nil_append]

set_option maxRecDepth 8192 in
/-- C3 (counterexample): the round-trip claim as stated fails when the
message itself contains the field delimiter token.  For the error record
with message `boom" || PWNED` (which contains a double quote) and a
stack trace with a newline, splitting the rendered line on the delimiter
yields 8 fields, not the original 7. -/
theorem C3_delimiter_counterexample :
    ('"' ∈ "boom\" || PWNED".data) ∧
    ('\n' ∈ "L1\nL2".data) ∧
    ¬ (splitFields (errorLogBody "D" 500 "GET" "/e" "boom\" || PWNED"
        (stackTraceOf (some "L1\nL2")))).length = 7 := by
  refine ⟨by decide, by decide, by decide⟩

/-- C3 (amended): for every error record whose message contains a double
quote and whose stack trace contains newlines, provided no field contains
a pipe character and the fields other than the stack trace contain no
newline, the rendered SERVER_ERROR line contains no raw newline, every
quote inside each quoted field is doubled, and splitting the line on the
field delimiter recovers the original field count (7). -/
theorem C3_roundtrip_amended (date method path message stack : String) (status : Nat)
    (hq : '"' ∈ message.data)
    (hsn : '\n' ∈ stack.data)
    (hd1 : '|' ∉ date.data) (hd2 : '\n' ∉ date.data)
    (hm1 : '|' ∉ method.data) (hm2 : '\n' ∉ method.data)
    (hp1 : '|' ∉ path.data) (hp2 : '\n' ∉ path.data)
    (hg1 : '|' ∉ message.data) (hg2 : '\n' ∉ message.data)
    (hk1 : '|' ∉ stack.data) :
    '\n' ∉ (errorLogBody date status method path message
        (stackTraceOf (some stack))).data ∧
    doubledQuotes (escQ path.data) = true ∧
    doubledQuotes (escQ message.data) = true ∧
    doubledQuotes (escQ (stackTraceOf (some stack)).data) = true ∧
    (splitFields (errorLogBody date status method path message
        (stackTraceOf (some stack)))).length = 7 := by
  have hstq : '\n' ∉ (stackTraceOf (some stack)).data ∧
      noDoublePipe (stackTraceOf (some stack)).data = true := by
    by_cases hz : stack = ""
    · subst hz
      exact ⟨by decide, by decide⟩
    · have hform : stackTraceOf (some stack) = replNlStr stack := by
        simp [stackTraceOf, hz]
      rw [hform]
      exact ⟨replNl_no_nl stack.data, replNl_ndp hk1⟩
  have hsepnl : '\n' ∉ sepL := by decide
  have P1nl : '\n' ∉ ("[" ++ date ++ "]").data := by
    simp only [String.data_append]
    exact not_mem_append (not_mem_append (by decide) hd2) (by decide)
  have P2nl : '\n' ∉ ("LEVEL=SERVER_ERROR" : String).data := by decide
  have P3nl : '\n' ∉ ("STATUS=" ++ Nat.repr status).data := by
    simp only [String.data_append]
    exact not_mem_append (by decide) (repr_no_nl status)
  have P4nl : '\n' ∉ ("METHOD=" ++ method).data := by
    simp only [String.data_append]
    exact not_mem_append (by decide) hm2
  have P5nl : '\n' ∉ ("PATH=" ++ quote (some path)).data := by
    simp only [String.data_append]
    exact not_mem_append (by decide) (quote_not_mem (by decide) hp2)
  have P6nl : '\n' ∉ ("MESSAGE=" ++ quote (some message)).data := by
    simp only [String.data_append]
    exact not_mem_append (by decide) (quote_not_mem (by decide) hg2)
  have P7nl : '\n' ∉ ("STACK=" ++ quote (some (stackTraceOf (some stack)))).data := by
    simp only [String.data_append]
    exact not_mem_append (by decide) (quote_not_mem (by decide) hstq.1)
  have P1nd : noDoublePipe ("[" ++ date ++ "]").data = true := by
    apply ndp_of_not_pipe
    simp only [String.data_append]
    exact not_mem_append (not_mem_append (by decide) hd1) (by decide)
  have P2nd : noDoublePipe ("LEVEL=SERVER_ERROR" : String).data = true := by decide
  have P3nd : noDoublePipe ("STATUS=" ++ Nat.repr status).data = true := by
    apply ndp_of_not_pipe
    simp only [String.data_append]
    exact not_mem_append (by decide) (repr_no_pipe status)
  have P4nd : noDoublePipe ("METHOD=" ++ method).data = true := by
    apply ndp_of_not_pipe
    simp only [String.data_append]
    exact not_mem_append (by decide) hm1
  have P5nd : noDoublePipe ("PATH=" ++ quote (some path)).data = true := by
    apply ndp_of_not_pipe
    simp only [String.data_append]
    exact not_mem_append (by decide) (quote_not_mem (by decide) hp1)
  have P6nd : noDoublePipe ("MESSAGE=" ++ quote (some message)).data = true := by
    apply ndp_of_not_pipe
    simp only [String.data_append]
    exact not_mem_append (by decide) (quote_not_mem (by decide) hg1)
  have P7nd : noDoublePipe
      ("STACK=" ++ quote (some (stackTraceOf (some stack)))).data = true := by
    simp only [String.data_append]
    exact ndp_append_left_nopipe (by decide) (quote_ndp hstq.2)
  refine ⟨?_, escQ_doubled _, escQ_doubled _, escQ_doubled _, ?_⟩
  · rw [errorLogBody_data]
    exact not_mem_append P1nl (not_mem_append hsepnl (not_mem_append P2nl
      (not_mem_append hsepnl (not_mem_append P3nl (not_mem_append hsepnl
      (not_mem_append P4nl (not_mem_append hsepnl (not_mem_append P5nl
      (not_mem_append hsepnl (not_mem_append P6nl (not_mem_append hsepnl P7nl)))))))))))
  · have hlen : (splitFields (errorLogBody date status method path message
        (stackTraceOf (some stack)))).length =
        (splitPieces (errorLogBody date status method path message
          (stackTraceOf (some stack))).data).length := by
      simp [splitFields]
    rw [hlen, errorLogBody_data,
      split_seven _ _ _ _ _ _ _ P1nd P2nd P3nd P4nd P5nd P6nd P7nd]
    rfl

set_option maxRecDepth 8192 in
/-- Witness for C3 (amended) at a concrete record: a message containing a
double quote and a stack trace containing a newline. -/
theorem C3_roundtrip_amended_witness :
    '\n' ∉ (errorLogBody "2024-01-01T00:00:00.000Z" 500 "GET" "/error" "say \"hi\""
      (stackTraceOf (some "Error: boom\n    at main.js:1:1"))).data ∧
    (splitFields (errorLogBody "2024-01-01T00:00:00.000Z" 500 "GET" "/error" "say \"hi\""
      (stackTraceOf (some "Error: boom\n    at main.js:1:1")))).length = 7 := by
  have h := C3_roundtrip_amended "2024-01-01T00:00:00.000Z" "GET" "/error" "say \"hi\""
    "Error: boom\n    at main.js:1:1" 500 (by decide) (by decide) (by decide) (by decide)
    (by decide) (by decide) (by decide) (by decide) (by decide) (by decide) (by decide)
  exact ⟨h.1, h.2.2.2.2⟩

/-- C10: the error formatter is total on missing free-text fields: for a
SERVER_ERROR whose error object has no stack trace, every rendered line
contains `STACK="N/A"`, and the quote helper maps an absent or empty
string to the two-character token `""`. -/
theorem C10_missing_stack_total (err : Err) (req : Request) (m : Option Route) (d : String)
    (hstk : err.stack = none) (h5 : 500 ≤ err.status.getD 500) :
    (∀ line ∈ (errorHandler err req m d).serverErrorLines,
      List.IsInfix ("STACK=\"N/A\"" : String).data line.data) ∧
    quote none = "\"\"" ∧ quote (some "") = "\"\"" := by
  refine ⟨?_, rfl, rfl⟩
  intro line hline
  obtain ⟨h1, -, -⟩ := errorHandler_server err req m d h5
  rw [h1, hstk] at hline
  simp only [List.mem_singleton] at hline
  subst hline
  refine ⟨("[" ++ d ++ "] || LEVEL=SERVER_ERROR || STATUS=" ++
    Nat.repr (err.status.getD 500) ++ " || METHOD=" ++ req.method ++ " || PATH=" ++
    quote (some req.path) ++ " || MESSAGE=" ++ quote (some err.message) ++ " || ").data,
    ("\n" : String).data, ?_⟩
  have hb : (quote (some (stackTraceOf none))).data = ['"', 'N', '/', 'A', '"'] := by
    decide
  simp only [errorLogBody, String.data_append, hb, List.append_assoc, List.cons_append,
    List.nil_append]

/-- Witness for C10 at a concrete error with no stack. -/
theorem C10_missing_stack_total_witness :
    List.IsInfix (("STACK=\"N/A\"" : String).data)
      ((errorLogBody "D" 500 "GET" "/" "boom" (stackTraceOf none) ++ "\n").data) ∧
    quote none = "\"\"" ∧ quote (some "") = "\"\"" := by
  have h := C10_missing_stack_total ⟨"boom", none, none⟩ reqRoot none "D" rfl (by decide)
  exact ⟨h.1 _ (by decide), h.2.1, h.2.2⟩

end Loggerino
